import Mathlib

set_option linter.unusedVariables false

/-!
Verification development for the gaffer-public example scripts.

The Python sources under `examples/` are embedded shallowly:

* `analyze.py` (03-multi-language-build): JSON values are modelled by
  `JValue`; the two calls into the standard library that can raise on
  ill-typed data (`len(...)` and numeric subtraction on the timestamp)
  are modelled by `pyLen` and `pyNum` returning `Except`.  Calls to
  `np.random.*` are an oracle `rnd : Nat -> Rat` and `time.time()` is a
  parameter `now : Rat`.
* `classifier.py` / `predictor.py` (08-multi-language-task-running): the
  scikit-learn `RandomForestClassifier` is modelled at its documented
  semantics: a fitted forest is a nonempty list of trees, each mapping a
  feature row to a probability distribution over the fitted classes, and
  `predict_proba` averages the tree distributions.  `np.argsort` is
  modelled by an insertion sort on indices (the library does not fix the
  order of ties).  Probabilities are rationals.
* the pipeline scripts (05-ml-workflows): filesystem existence is an
  oracle `fs : String -> Bool`, per-model fitting is an oracle returning
  `Except`, and the per-dataset loops are embedded as folds.
-/

/-- JSON values as produced by `response.json()` in `analyze.py`:
objects, arrays, strings, numbers, booleans and null. -/
inductive JValue where
  | str (s : String)
  | num (q : ℚ)
  | bool (b : Bool)
  | obj (fields : List (String × JValue))
  | arr (items : List JValue)
  | null

/-- Dictionary lookup `d.get(k)`: first binding of the key, if any. -/
def jlookup (fields : List (String × JValue)) (k : String) : Option JValue :=
  (fields.find? (fun p => p.1 == k)).map (fun p => p.2)

/-- Python `len(v)` on a JSON value: objects, arrays and strings have a
length; numbers, booleans and null raise `TypeError`. -/
def pyLen : JValue → Except String Nat
  | JValue.obj fields => Except.ok fields.length
  | JValue.arr items => Except.ok items.length
  | JValue.str s => Except.ok s.length
  | _ => Except.error "TypeError: object has no len"

/-- Coercion of a JSON value used in Python arithmetic (for example
`time.time() - timestamp`): numbers are themselves, booleans are 0 or 1,
everything else raises `TypeError`. -/
def pyNum : JValue → Except String ℚ
  | JValue.num q => Except.ok q
  | JValue.bool b => Except.ok (if b then 1 else 0)
  | _ => Except.error "TypeError: unsupported operand type"

/-- Result dictionary built by `analyze_api_response` in `analyze.py`:
the `response_analysis` and `predictions` sub-dictionaries flattened into
one record, plus the recommendations list. -/
structure MLAnalysis where
  data_quality_score : ℚ
  completeness : ℚ
  freshness_score : ℚ
  next_request_time : ℚ
  load_forecast : ℚ
  health_confidence : ℚ
  recommendations : List String
deriving DecidableEq

/-- Embedding of `analyze_api_response` (analyze.py lines 29-63).
`data.get('data', \x7b\x7d)` and `data.get('timestamp', time.time())`
substitute defaults for absent keys; `len(api_data)` and the timestamp
arithmetic can raise on ill-typed present values, in that order.  The
random draws are `rnd 0` (data quality), `rnd 1` (exponential inter-request
gap), `rnd 2` (load forecast), `rnd 3` (health confidence). -/
def analyze_api_response (data : List (String × JValue)) (now : ℚ)
    (rnd : Nat → ℚ) : Except String MLAnalysis :=
  let api_data := (jlookup data "data").getD (JValue.obj [])
  let timestamp := (jlookup data "timestamp").getD (JValue.num now)
  match pyLen api_data with
  | Except.error e => Except.error e
  | Except.ok n =>
    match pyNum timestamp with
    | Except.error e => Except.error e
    | Except.ok ts =>
      let dq := rnd 0
      let fresh := max 0 (1 - (now - ts) / 3600)
      let hc := rnd 3
      let recs :=
        (if dq > 9 / 10 then
            ["High data quality - system performing well"] else [])
        ++ (if fresh > 8 / 10 then
            ["Data is fresh - real-time processing possible"] else [])
        ++ (if hc > 95 / 100 then
            ["System health excellent - scale up recommended"] else [])
      Except.ok
        { data_quality_score := dq
          completeness := (n : ℚ) / 10
          freshness_score := fresh
          next_request_time := ts + rnd 1
          load_forecast := rnd 2
          health_confidence := hc
          recommendations := recs }

/-- Result dictionary of `fetch_and_analyze_metrics` (analyze.py lines
65-100), restricted to the fields the spec talks about. -/
structure FetchResult where
  success : Bool
  backend_language : Option JValue
  ml_analysis : Option MLAnalysis
  error_msg : Option String

/-- Embedding of `fetch_and_analyze_metrics` (analyze.py lines 65-100).
The HTTP GET is an oracle: `Except.error` is a raised request exception
(connection error, HTTP error, non-JSON body), `Except.ok` the decoded
JSON object.  An exception raised inside `analyze_api_response` is caught
by the `except Exception` clause and becomes a failure dictionary.
`api_data.get('language', 'unknown')` appears only in the success
dictionary. -/
def fetch_and_analyze_metrics (resp : Except String (List (String × JValue)))
    (now : ℚ) (rnd : Nat → ℚ) : FetchResult :=
  match resp with
  | Except.error e =>
    { success := false, backend_language := none, ml_analysis := none
      error_msg := some e }
  | Except.ok api_data =>
    match analyze_api_response api_data now rnd with
    | Except.error e =>
      { success := false, backend_language := none, ml_analysis := none
        error_msg := some e }
    | Except.ok analysis =>
      { success := true
        backend_language := some ((jlookup api_data "language").getD (JValue.str "unknown"))
        ml_analysis := some analysis
        error_msg := none }

/-- Embedding of `main` in analyze.py (lines 182-210): the exit code is
`0 if combined_results.get('success', True) else 1`, and the merged
dictionary always carries the `success` flag of
`fetch_and_analyze_metrics` (the build-metrics dictionary has no such
key). -/
def analyzeMain (resp : Except String (List (String × JValue)))
    (now : ℚ) (rnd : Nat → ℚ) : Nat :=
  if (fetch_and_analyze_metrics resp now rnd).success then 0 else 1

/-- Semantic model of a (fitted or unfitted) scikit-learn
`RandomForestClassifier` as held in `ImageClassifier.model`: a list of
trees, each mapping a feature row to a vector of per-class probabilities,
together with the number of fitted classes.  `predict_proba` is the
tree-average, as documented by the library. -/
structure RandomForest where
  nClasses : Nat
  trees : List (List ℚ → List ℚ)

/-- Pointwise sum of probability vectors, starting from the zero vector
of the given width. -/
def sumVecs (n : Nat) (ls : List (List ℚ)) : List ℚ :=
  ls.foldl (fun acc v => List.zipWith (fun a b => a + b) acc v)
    (List.replicate n 0)

/-- Probability row of the forest on one sample: the mean of the trees
per-class probability vectors. -/
def RandomForest.probaRow (f : RandomForest) (x : List ℚ) : List ℚ :=
  (sumVecs f.nClasses (f.trees.map (fun t => t x))).map
    (fun v => v / (f.trees.length : ℚ))

/-- Matrix form of `predict_proba`: one probability row per input row. -/
def RandomForest.predictProba (f : RandomForest) (X : List (List ℚ)) : List (List ℚ) :=
  X.map f.probaRow

/-- Library guarantee for a fitted forest: at least one tree (the code
always asks for 100), and every tree yields, on every input, a
probability distribution of width `nClasses` with nonnegative entries
summing to 1 (normalised leaf class counts). -/
structure Fitted (f : RandomForest) : Prop where
  nonempty : f.trees ≠ []
  len : ∀ t ∈ f.trees, ∀ x, (t x).length = f.nClasses
  nonneg : ∀ t ∈ f.trees, ∀ x, ∀ v ∈ t x, 0 ≤ v
  sum : ∀ t ∈ f.trees, ∀ x, (t x).sum = 1

/-- Model state of a freshly constructed `RandomForestClassifier`
(no trees fitted yet). -/
def unfittedForest : RandomForest :=
  { nClasses := 0, trees := [] }

/-- Fixed label list installed by `ImageClassifier.__init__`. -/
def fourLabels : List String :=
  ["cats", "dogs", "birds", "fish"]

/-- Embedding of `ImageClassifier` (classifier.py lines 9-23): a model
and the fixed label list. -/
structure ImageClassifier where
  model : RandomForest
  labels : List String

/-- Embedding of `ImageClassifier.__init__`. -/
def ImageClassifier.init : ImageClassifier :=
  { model := unfittedForest, labels := fourLabels }

/-- Embedding of `ImageClassifier.train` (classifier.py lines 25-33):
`self.model.fit(X, y)` replaces the fitted state of the model field; the
fitted forest produced by the library is the argument. -/
def ImageClassifier.train (c : ImageClassifier) (fitted : RandomForest) : ImageClassifier :=
  { c with model := fitted }

/-- Embedding of `ImageClassifier.save` (classifier.py lines 59-61):
`joblib.dump` writes to disk and leaves the object unchanged. -/
def ImageClassifier.save (c : ImageClassifier) (path : String) : ImageClassifier :=
  c

/-- Embedding of `ImageClassifier.load` (classifier.py lines 63-65):
`self.model = joblib.load(path)` replaces the model field with whatever
forest was on disk, touching nothing else. -/
def ImageClassifier.load (c : ImageClassifier) (loaded : RandomForest) : ImageClassifier :=
  { c with model := loaded }

/-- Embedding of `ImageClassifier.predict_proba` (classifier.py lines
47-57): a direct delegation to the model. -/
def ImageClassifier.predict_proba (c : ImageClassifier) (X : List (List ℚ)) : List (List ℚ) :=
  c.model.predictProba X

/-- One of the three mutating operations of claim C10. -/
inductive ClfOp where
  | train (fitted : RandomForest)
  | save (path : String)
  | load (loaded : RandomForest)

/-- Application of one operation to a classifier. -/
def ImageClassifier.applyOp (c : ImageClassifier) : ClfOp → ImageClassifier
  | ClfOp.train f => c.train f
  | ClfOp.save p => c.save p
  | ClfOp.load f => c.load f

/-- Embedding of `np.argsort(proba)`: the indices of `proba` sorted so
that the values are ascending (the library fixes no order on ties; the
model uses insertion sort). -/
def argsort (p : List ℚ) : List Nat :=
  List.insertionSort (fun i j => p.getD i 0 ≤ p.getD j 0) (List.range p.length)

/-- Embedding of `np.argsort(proba)[-top_k:][::-1]` with Python slicing
semantics: for `top_k = 0` the slice `[-0:]` is the whole array, for
positive `top_k` it is the last `min top_k n` entries; `[::-1]`
reverses. -/
def topIndices (p : List ℚ) (top_k : Nat) : List Nat :=
  if top_k = 0 then (argsort p).reverse
  else ((argsort p).drop ((argsort p).length - top_k)).reverse

/-- Per-row body of `get_predictions` (predictor.py lines 36-43): the
(label, confidence) pairs at the top indices. -/
def predRow (labels : List String) (p : List ℚ) (top_k : Nat) : List (String × ℚ) :=
  (topIndices p top_k).map (fun idx => (labels.getD idx "", p.getD idx 0))

/-- State of a `PredictionService` (predictor.py lines 8-20): it holds
one `ImageClassifier`. -/
structure PredictionService where
  classifier : ImageClassifier

/-- Embedding of `PredictionService.get_predictions` (predictor.py lines
22-45): probability rows from the classifier, then per row the top-k
(label, confidence) pairs, highest probability first. -/
def get_predictions (s : PredictionService) (features : List (List ℚ))
    (top_k : Nat) : List (List (String × ℚ)) :=
  (s.classifier.predict_proba features).map
    (fun proba => predRow s.classifier.labels proba top_k)

/-- Embedding of `PredictionService.batch_predict` (predictor.py lines
47-60): `get_predictions` with the default `top_k = 3` on each batch. -/
def batch_predict (s : PredictionService) (batch_features : List (List (List ℚ))) :
    List (List (List (String × ℚ))) :=
  batch_features.map (fun features => get_predictions s features 3)

/-- Dataset list hard-coded in the mains of train_model.py,
feature_engineering.py and evaluate_model.py. -/
def datasets : List String :=
  ["california_housing", "iris", "wine"]

/-- Processed-CSV path for a dataset (train_model.py line 44). -/
def processedPath (dataset_name : String) : String :=
  "data/processed/" ++ dataset_name ++ "_processed.csv"

/-- Raw-CSV path for a dataset (train_model.py line 49,
feature_engineering.py line 36). -/
def rawPath (dataset_name : String) : String :=
  "data/raw/" ++ dataset_name ++ ".csv"

/-- Saved-model path for a model/dataset pair (train_model.py line 196). -/
def modelPath (model_name dataset_name : String) : String :=
  "data/models/" ++ model_name ++ "_" ++ dataset_name ++ "_model.joblib"

/-- Embedding of `MLModelTrainer.load_processed_data` (train_model.py
lines 42-57) over a file-existence oracle `fs`: return the processed CSV
when it exists, otherwise fall back to the raw CSV, otherwise raise
`FileNotFoundError`.  The returned string is the path whose contents were
read. -/
def load_processed_data (fs : String → Bool) (dataset_name : String) :
    Except String String :=
  if fs (processedPath dataset_name) then Except.ok (processedPath dataset_name)
  else if fs (rawPath dataset_name) then Except.ok (rawPath dataset_name)
  else Except.error "FileNotFoundError"

/-- Embedding of `FeatureEngineer.load_raw_data` (feature_engineering.py
lines 34-47): raise `FileNotFoundError` exactly when the raw CSV is
missing. -/
def load_raw_data (fs : String → Bool) (dataset_name : String) :
    Except String String :=
  if fs (rawPath dataset_name) then Except.ok (rawPath dataset_name)
  else Except.error "FileNotFoundError"

/-- Model names created by `create_models` for a regression problem
(train_model.py lines 100-114, with XGBoost available). -/
def regressionModels : List String :=
  ["linear_regression", "random_forest", "svr", "xgboost"]

/-- Model names created by `create_models` for a classification problem
(train_model.py lines 117-134, with XGBoost available). -/
def classificationModels : List String :=
  ["logistic_regression", "random_forest", "svc", "xgboost"]

/-- Union of all model names the training loop can produce. -/
def allModelNames : List String :=
  (regressionModels ++ classificationModels).dedup

/-- All (model name, dataset name) pairs the pipeline can save. -/
def allModelDatasetPairs : List (String × String) :=
  allModelNames.flatMap (fun m => datasets.map (fun d => (m, d)))

/-- Entry recorded in `results` for one successfully trained model:
name, score, and the path the model artifact was saved to. -/
structure TrainedEntry where
  name : String
  score : ℚ
  path : String
deriving DecidableEq

/-- Embedding of the training loop of `MLModelTrainer.train_models`
(train_model.py lines 161-202): each model is fitted inside try/except;
on success its entry is appended to `results` and the artifact is saved
at `modelPath`; on an exception the loop logs and continues with the next
model.  Fitting and scoring are an oracle `fit` returning the score or a
raised exception. -/
def train_models (model_names : List String) (fit : String → Except String ℚ)
    (dataset_name : String) : List TrainedEntry :=
  model_names.foldl
    (fun acc model_name =>
      match fit model_name with
      | Except.ok score =>
        acc ++ [{ name := model_name, score := score
                  path := modelPath model_name dataset_name }]
      | Except.error _ => acc)
    []

/-- Embedding of `train_dataset` (train_model.py lines 242-266): the
body is wrapped in try/except and returns a boolean.  Loading can raise
`FileNotFoundError`; the remaining steps (prepare, train, save results)
are an oracle `rest`.  Any exception yields `false`. -/
def train_dataset (fs : String → Bool) (rest : String → Bool)
    (dataset_name : String) : Bool :=
  match load_processed_data fs dataset_name with
  | Except.error _ => false
  | Except.ok _ => rest dataset_name

/-- Embedding of `process_dataset` (feature_engineering.py lines
331-372): same try/except shape around `load_raw_data` and the
transformation steps. -/
def process_dataset (fs : String → Bool) (rest : String → Bool)
    (dataset_name : String) : Bool :=
  match load_raw_data fs dataset_name with
  | Except.error _ => false
  | Except.ok _ => rest dataset_name

/-- Successfully handled datasets of a per-dataset pipeline loop, in
loop order: the loop calls `proc` on each dataset and collects the ones
that return `true` (the mains count these). -/
def pipelineSuccesses (ds : List String) (proc : String → Bool) : List String :=
  ds.foldl (fun acc d => if proc d then acc ++ [d] else acc) []

/-- Embedding of `main` in train_model.py (lines 268-293): count the
datasets for which `train_dataset` returned `true`; exit 0 when the
count is positive, 1 otherwise. -/
def trainModelMain (proc : String → Bool) : Nat :=
  let successful := datasets.foldl (fun acc d => if proc d then acc + 1 else acc) 0
  if 0 < successful then 0 else 1

/-- Embedding of `main` in feature_engineering.py (lines 374-399): the
same loop-and-count shape over `process_dataset`. -/
def featureEngineeringMain (proc : String → Bool) : Nat :=
  let successful := datasets.foldl (fun acc d => if proc d then acc + 1 else acc) 0
  if 0 < successful then 0 else 1

/-- Embedding of `main` in evaluate_model.py (lines 308-333): the same
loop-and-count shape over `evaluate_dataset`. -/
def evaluateModelMain (proc : String → Bool) : Nat :=
  let successful := datasets.foldl (fun acc d => if proc d then acc + 1 else acc) 0
  if 0 < successful then 0 else 1

/-- Download record built by `main` in data_prep.py (lines 151-171):
each of the three real downloads is wrapped in try/except and appends
its output path on success; `download_external_dataset` never raises and
always appends `none`. -/
def dataPrepDownloads (outcome : String → Bool) : List (Option String) :=
  (if outcome "california_housing" then [some (rawPath "california_housing")] else [])
  ++ (if outcome "iris" then [some (rawPath "iris")] else [])
  ++ (if outcome "wine" then [some (rawPath "wine")] else [])
  ++ [none]

/-- Number of dataset downloads that actually succeeded in a
data_prep.py run. -/
def dataPrepSuccessCount (outcome : String → Bool) : Nat :=
  (dataPrepDownloads outcome).countP (fun o => o.isSome)

/-- Embedding of `main` in data_prep.py (lines 143-182): every download
failure is caught and logged inside the body, and the function ends with
an unconditional `return 0`; the exit code does not depend on the
outcomes. -/
def dataPrepMain (outcome : String → Bool) : Nat :=
  let ds := dataPrepDownloads outcome
  0

theorem isOk_exists {ε α : Type} (e : Except ε α) (h : e.isOk = true) :
    ∃ a, e = Except.ok a := by
  cases e with
  | ok a => exact ⟨a, rfl⟩
  | error _ => simp [Except.isOk, Except.toBool] at h

theorem foldl_count_eq (proc : String → Bool) (ds : List String) (a : Nat) :
    ds.foldl (fun acc d => if proc d then acc + 1 else acc) a
      = a + ds.countP proc := by
  induction ds generalizing a with
  | nil => simp
  | cons d ds ih =>
    rw [List.foldl_cons, ih, List.countP_cons]
    cases h : proc d <;> (simp [h]; try omega)

theorem pipelineSuccesses_eq (ds : List String) (proc : String → Bool) :
    pipelineSuccesses ds proc = ds.filter proc := by
  have key : ∀ (l : List String) (acc : List String),
      l.foldl (fun acc d => if proc d then acc ++ [d] else acc) acc
        = acc ++ l.filter proc := by
    intro l
    induction l with
    | nil => intro acc; simp
    | cons d l ih =>
      intro acc
      rw [List.foldl_cons, List.filter_cons]
      cases h : proc d <;> simp [h, ih]
  simpa using key ds []

/-- Selector applied by the training loop to one model name. -/
def trainStep (fit : String → Except String ℚ) (dataset_name : String)
    (model_name : String) : Option TrainedEntry :=
  match fit model_name with
  | Except.ok score =>
    some { name := model_name, score := score
           path := modelPath model_name dataset_name }
  | Except.error _ => none

theorem train_models_eq (names : List String) (fit : String → Except String ℚ)
    (ds : String) :
    train_models names fit ds = names.filterMap (trainStep fit ds) := by
  have key : ∀ (l : List String) (acc : List TrainedEntry),
      l.foldl
        (fun acc model_name =>
          match fit model_name with
          | Except.ok score =>
            acc ++ [{ name := model_name, score := score
                      path := modelPath model_name ds }]
          | Except.error _ => acc) acc
        = acc ++ l.filterMap (trainStep fit ds) := by
    intro l
    induction l with
    | nil => intro acc; simp
    | cons m l ih =>
      intro acc
      rw [List.foldl_cons, List.filterMap_cons]
      cases h : fit m <;> simp [trainStep, h, ih]
  simpa [train_models] using key names []

theorem zipWith_add_sum (a b : List ℚ) (h : a.length = b.length) :
    (List.zipWith (fun x y => x + y) a b).sum = a.sum + b.sum := by
  induction a generalizing b with
  | nil => cases b <;> simp_all
  | cons x xs ih =>
    cases b with
    | nil => simp at h
    | cons y ys =>
      simp only [List.length_cons, Nat.add_right_cancel_iff] at h
      simp [ih ys h]
      ring

theorem zipWith_add_nonneg (a b : List ℚ) (ha : ∀ v ∈ a, 0 ≤ v)
    (hb : ∀ v ∈ b, 0 ≤ v) :
    ∀ v ∈ List.zipWith (fun x y => x + y) a b, 0 ≤ v := by
  induction a generalizing b with
  | nil => simp
  | cons x xs ih =>
    cases b with
    | nil => simp
    | cons y ys =>
      intro v hv
      rw [List.zipWith_cons_cons, List.mem_cons] at hv
      rcases hv with h | hv
      · rw [h]
        exact add_nonneg (ha x (by simp)) (hb y (by simp))
      · exact ih ys (fun w hw => ha w (by simp [hw]))
          (fun w hw => hb w (by simp [hw])) v hv

theorem sumVecs_foldl (ls : List (List ℚ)) (n : Nat) (acc : List ℚ)
    (hacc : acc.length = n) (hlen : ∀ l ∈ ls, l.length = n) :
    (ls.foldl (fun a v => List.zipWith (fun x y => x + y) a v) acc).length = n
    ∧ (ls.foldl (fun a v => List.zipWith (fun x y => x + y) a v) acc).sum
        = acc.sum + (ls.map List.sum).sum
    ∧ ((∀ v ∈ acc, 0 ≤ v) → (∀ l ∈ ls, ∀ v ∈ l, 0 ≤ v) →
        ∀ v ∈ ls.foldl (fun a v => List.zipWith (fun x y => x + y) a v) acc,
          0 ≤ v) := by
  induction ls generalizing acc with
  | nil =>
    refine ⟨hacc, by simp, ?_⟩
    intro h _ v hv
    exact h v hv
  | cons l ls ih =>
    have hl : l.length = n := hlen l (by simp)
    have hlen' : ∀ m ∈ ls, m.length = n := fun m hm => hlen m (by simp [hm])
    have hzl : (List.zipWith (fun x y => x + y) acc l).length = n := by
      rw [List.length_zipWith, hacc, hl]
      simp
    obtain ⟨L, S, N⟩ := ih (List.zipWith (fun x y => x + y) acc l) hzl hlen'
    refine ⟨L, ?_, ?_⟩
    · rw [List.foldl_cons, S, zipWith_add_sum acc l (by rw [hacc, hl])]
      simp
      ring
    · intro hap hlp v hv
      refine N ?_ (fun m hm w hw => hlp m (by simp [hm]) w hw) v hv
      exact zipWith_add_nonneg acc l hap (fun w hw => hlp l (by simp) w hw)

theorem sum_map_div (l : List ℚ) (c : ℚ) :
    (l.map (fun v => v / c)).sum = l.sum / c := by
  induction l with
  | nil => simp
  | cons x xs ih =>
    simp [ih]
    ring

theorem probaRow_length (f : RandomForest) (hf : Fitted f) (x : List ℚ) :
    (f.probaRow x).length = f.nClasses := by
  unfold RandomForest.probaRow sumVecs
  rw [List.length_map]
  exact (sumVecs_foldl (f.trees.map (fun t => t x)) f.nClasses
    (List.replicate f.nClasses 0) (by simp)
    (by
      intro l hl
      rw [List.mem_map] at hl
      obtain ⟨t, ht, rfl⟩ := hl
      exact hf.len t ht x)).1

theorem argsort_length (p : List ℚ) : (argsort p).length = p.length := by
  unfold argsort
  rw [List.length_insertionSort, List.length_range]

theorem argsort_pairwise (p : List ℚ) :
    List.Pairwise (fun i j => p.getD i 0 ≤ p.getD j 0) (argsort p) := by
  haveI : IsTotal Nat (fun i j => p.getD i 0 ≤ p.getD j 0) :=
    ⟨fun a b => le_total _ _⟩
  haveI : IsTrans Nat (fun i j => p.getD i 0 ≤ p.getD j 0) :=
    ⟨fun a b c hab hbc => le_trans hab hbc⟩
  exact List.sorted_insertionSort _ _

theorem argsort_mem (p : List ℚ) : ∀ i ∈ argsort p, i < p.length := by
  intro i hi
  have hmem : i ∈ List.range p.length :=
    (List.perm_insertionSort _ _).mem_iff.1 hi
  exact List.mem_range.1 hmem

theorem topIndices_pairwise (p : List ℚ) (k : Nat) :
    List.Pairwise (fun i j => p.getD j 0 ≤ p.getD i 0) (topIndices p k) := by
  unfold topIndices
  split
  · exact List.pairwise_reverse.2 (argsort_pairwise p)
  · exact List.pairwise_reverse.2
      (List.Pairwise.sublist (List.drop_sublist _ _) (argsort_pairwise p))

theorem topIndices_mem (p : List ℚ) (k : Nat) :
    ∀ i ∈ topIndices p k, i < p.length := by
  intro i hi
  unfold topIndices at hi
  split at hi
  · exact argsort_mem p i (List.mem_reverse.1 hi)
  · exact argsort_mem p i (List.mem_of_mem_drop (List.mem_reverse.1 hi))

theorem topIndices_length (p : List ℚ) (k : Nat) (hk : 0 < k) :
    (topIndices p k).length = min k p.length := by
  unfold topIndices
  split
  · omega
  · rw [List.length_reverse, List.length_drop, argsort_length]
    omega

theorem predRow_length (labels : List String) (p : List ℚ) (k : Nat)
    (hk : 0 < k) :
    (predRow labels p k).length = min k p.length := by
  unfold predRow
  rw [List.length_map, topIndices_length p k hk]

theorem predRow_pairwise (labels : List String) (p : List ℚ) (k : Nat) :
    List.Pairwise (fun a b => b.2 ≤ a.2) (predRow labels p k) := by
  unfold predRow
  rw [List.pairwise_map]
  exact topIndices_pairwise p k

theorem predRow_mem (labels : List String) (p : List ℚ) (k : Nat) :
    ∀ pr ∈ predRow labels p k,
      ∃ idx, idx < p.length ∧ pr = (labels.getD idx "", p.getD idx 0) := by
  intro pr hpr
  unfold predRow at hpr
  rw [List.mem_map] at hpr
  obtain ⟨idx, hidx, rfl⟩ := hpr
  exact ⟨idx, topIndices_mem p k idx hidx, rfl⟩

theorem probaRow_dist (f : RandomForest) (hf : Fitted f) (x : List ℚ) :
    (f.probaRow x).length = f.nClasses
    ∧ (∀ v ∈ f.probaRow x, 0 ≤ v)
    ∧ (f.probaRow x).sum = 1 := by
  have hlen : ∀ l ∈ f.trees.map (fun t => t x), l.length = f.nClasses := by
    intro l hl
    rw [List.mem_map] at hl
    obtain ⟨t, ht, rfl⟩ := hl
    exact hf.len t ht x
  obtain ⟨L, S, N⟩ := sumVecs_foldl (f.trees.map (fun t => t x)) f.nClasses
    (List.replicate f.nClasses 0) (by simp) hlen
  have hT : (0 : ℚ) < (f.trees.length : ℚ) := by
    have : f.trees.length ≠ 0 := by
      intro h
      exact hf.nonempty (List.length_eq_zero.1 h)
    exact_mod_cast Nat.pos_of_ne_zero this
  refine ⟨?_, ?_, ?_⟩
  · unfold RandomForest.probaRow sumVecs
    rw [List.length_map]
    exact L
  · intro v hv
    unfold RandomForest.probaRow sumVecs at hv
    rw [List.mem_map] at hv
    obtain ⟨w, hw, rfl⟩ := hv
    refine div_nonneg ?_ (le_of_lt hT)
    refine N (by simp) ?_ w hw
    intro l hl v hv
    rw [List.mem_map] at hl
    obtain ⟨t, ht, rfl⟩ := hl
    exact hf.nonneg t ht x v hv
  · unfold RandomForest.probaRow sumVecs
    rw [sum_map_div]
    have hsums : ((f.trees.map (fun t => t x)).map List.sum).sum
        = (f.trees.length : ℚ) := by
      rw [List.map_map]
      have : f.trees.map (List.sum ∘ fun t => t x)
          = f.trees.map (fun _ => (1 : ℚ)) :=
        List.map_congr_left (fun t ht => hf.sum t ht x)
      rw [this, List.map_const', List.sum_replicate]
      simp
    rw [S, hsums]
    simp [List.sum_replicate]
    exact div_self (ne_of_gt hT)

/-- Constant demo tree used for concrete witnesses: class 0 with
certainty on every input. -/
def demoTree : List ℚ → List ℚ :=
  fun _ => [1, 0, 0, 0]

/-- Concrete fitted four-class forest with two trees. -/
def demoForest : RandomForest :=
  { nClasses := 4, trees := [demoTree, demoTree] }

/-- Concrete classifier over the four labels. -/
def demoClassifier : ImageClassifier :=
  { model := demoForest, labels := fourLabels }

/-- Concrete prediction service holding `demoClassifier`. -/
def demoService : PredictionService :=
  { classifier := demoClassifier }

theorem demoForest_fitted : Fitted demoForest := by
  refine ⟨by simp [demoForest], ?_, ?_, ?_⟩
  · intro t ht x
    rcases (by simpa [demoForest] using ht : t = demoTree ∨ t = demoTree)
      with h | h <;> (subst h; simp [demoTree, demoForest])
  · intro t ht x v hv
    rcases (by simpa [demoForest] using ht : t = demoTree ∨ t = demoTree)
      with h | h <;>
      (subst h
       rcases (by simpa [demoTree] using hv : v = 1 ∨ v = 0 ∨ v = 0 ∨ v = 0)
         with h1 | h1 | h1 | h1 <;> (subst h1; norm_num))
  · intro t ht x
    rcases (by simpa [demoForest] using ht : t = demoTree ∨ t = demoTree)
      with h | h <;> (subst h; norm_num [demoTree])

theorem getD_zero_mem {α : Type} (l : List α) (d : α) (h : 0 < l.length) :
    l.getD 0 d ∈ l := by
  cases l with
  | nil => simp at h
  | cons x xs => simp [List.getD]

theorem applyOp_labels (c : ImageClassifier) (op : ClfOp) :
    (c.applyOp op).labels = c.labels := by
  cases op <;> rfl

/-- Claim C10: train, save and load modify only the model field; after any
sequence of such operations starting from a fresh classifier, the labels
field is still the fixed four-label list, even when a loaded forest was
fitted on different classes. -/
theorem c10_labels_frame (ops : List ClfOp) :
    (ops.foldl ImageClassifier.applyOp ImageClassifier.init).labels
      = ["cats", "dogs", "birds", "fish"] := by
  have key : ∀ c : ImageClassifier,
      (ops.foldl ImageClassifier.applyOp c).labels = c.labels := by
    induction ops with
    | nil => intro c; rfl
    | cons op ops ih =>
      intro c
      rw [List.foldl_cons, ih, applyOp_labels]
  rw [key]
  rfl

/-- Claim C4: for every trained classifier and every feature matrix, every
row of predict_proba is a probability distribution over the fitted
classes: width nClasses, nonnegative entries, and sum exactly 1. -/
theorem c4_predict_proba_rows_are_distributions (c : ImageClassifier)
    (hf : Fitted c.model) (X : List (List ℚ)) :
    ∀ row ∈ c.predict_proba X,
      row.length = c.model.nClasses ∧ (∀ v ∈ row, 0 ≤ v) ∧ row.sum = 1 := by
  intro row hrow
  rw [ImageClassifier.predict_proba, RandomForest.predictProba,
    List.mem_map] at hrow
  obtain ⟨x, hx, rfl⟩ := hrow
  exact probaRow_dist c.model hf x

/-- Witness for C4: the concrete two-tree forest is fitted and its
probability row on a concrete sample sums to 1. -/
theorem c4_witness :
    Fitted demoClassifier.model
    ∧ ((demoClassifier.predict_proba [[0, 1]]).getD 0 []).sum = 1 := by
  refine ⟨demoForest_fitted, ?_⟩
  have hlen : 0 < (demoClassifier.predict_proba [[0, 1]]).length := by
    simp [ImageClassifier.predict_proba, RandomForest.predictProba]
  exact (c4_predict_proba_rows_are_distributions demoClassifier
    demoForest_fitted [[0, 1]] _ (getD_zero_mem _ _ hlen)).2.2

theorem get_predictions_length (s : PredictionService) (X : List (List ℚ))
    (k : Nat) : (get_predictions s X k).length = X.length := by
  unfold get_predictions ImageClassifier.predict_proba RandomForest.predictProba
  rw [List.length_map, List.length_map]

/-- Claim C3: batch_predict returns one result per batch, and the i-th
result has exactly as many per-sample prediction lists as the i-th batch
has input rows. -/
theorem c3_batch_predict_counts (s : PredictionService)
    (hf : Fitted s.classifier.model) (batch : List (List (List ℚ))) :
    (batch_predict s batch).length = batch.length
    ∧ ∀ i, i < batch.length →
        ((batch_predict s batch).getD i []).length
          = (batch.getD i []).length := by
  constructor
  · unfold batch_predict
    rw [List.length_map]
  · intro i hi
    unfold batch_predict
    rw [List.getD_eq_getElem _ _ (by simpa using hi), List.getElem_map,
      List.getD_eq_getElem _ _ hi]
    exact get_predictions_length s _ 3

/-- Witness for C3 on a concrete two-batch input whose second batch has
two sample rows. -/
theorem c3_witness :
    Fitted demoService.classifier.model
    ∧ ((batch_predict demoService [[[0, 0]], [[1, 2], [3, 4]]]).getD 1 []).length
        = 2 := by
  refine ⟨demoForest_fitted, ?_⟩
  exact (c3_batch_predict_counts demoService demoForest_fitted
    [[[0, 0]], [[1, 2], [3, 4]]]).2 1 (by decide)

/-- Claim C2 (amended): for a service whose classifier is trained over the
four-label set, get_predictions yields one result row per input row;
every result row has min top_k nClasses pairs, so exactly top_k pairs
whenever top_k is at most the class count, and every returned label
belongs to the fixed four-label set. -/
theorem c2_get_predictions_topk_labels (s : PredictionService)
    (X : List (List ℚ)) (top_k : Nat) (hk : 0 < top_k)
    (hf : Fitted s.classifier.model) (hl : s.classifier.labels = fourLabels)
    (hn : s.classifier.model.nClasses = 4) :
    (get_predictions s X top_k).length = X.length
    ∧ ∀ row ∈ get_predictions s X top_k,
        row.length = min top_k 4 ∧ ∀ pr ∈ row, pr.1 ∈ fourLabels := by
  refine ⟨get_predictions_length s X top_k, ?_⟩
  intro row hrow
  unfold get_predictions at hrow
  rw [List.mem_map] at hrow
  obtain ⟨proba, hproba, rfl⟩ := hrow
  have hplen : proba.length = 4 := by
    rw [ImageClassifier.predict_proba, RandomForest.predictProba,
      List.mem_map] at hproba
    obtain ⟨x, hx, rfl⟩ := hproba
    rw [(probaRow_dist s.classifier.model hf x).1, hn]
  constructor
  · rw [predRow_length _ _ _ hk, hplen]
  · intro pr hpr
    obtain ⟨idx, hidx, rfl⟩ := predRow_mem _ _ _ pr hpr
    rw [hl]
    rw [hplen] at hidx
    have hi4 : idx < fourLabels.length := by
      simpa [fourLabels] using hidx
    rw [List.getD_eq_getElem _ _ hi4]
    exact List.getElem_mem hi4

/-- Counterexample to C2 as stated: on the four-class demo model,
top_k = 5 returns only four pairs for the single input row, not five. -/
theorem c2_counterexample :
    ((get_predictions demoService [[0, 0]] 5).getD 0 []).length ≠ 5 := by
  have hlen : 0 < (get_predictions demoService [[0, 0]] 5).length := by
    rw [get_predictions_length]
    decide
  have hrow := getD_zero_mem (get_predictions demoService [[0, 0]] 5) [] hlen
  unfold get_predictions at hrow ⊢
  rw [List.mem_map] at hrow
  obtain ⟨proba, hproba, hrow⟩ := hrow
  rw [← hrow, predRow_length _ _ _ (by decide)]
  have hplen : proba.length = 4 := by
    rw [ImageClassifier.predict_proba, RandomForest.predictProba,
      List.mem_map] at hproba
    obtain ⟨x, hx, rfl⟩ := hproba
    exact (probaRow_dist demoService.classifier.model demoForest_fitted x).1
  rw [hplen]
  decide

/-- Witness for C2 at top_k 2 on the demo service: exactly two pairs come
back for the single input row. -/
theorem c2_witness :
    (0 : Nat) < 2 ∧ Fitted demoService.classifier.model
    ∧ ((get_predictions demoService [[0, 0]] 2).getD 0 []).length = min 2 4 := by
  refine ⟨by decide, demoForest_fitted, ?_⟩
  have h := c2_get_predictions_topk_labels demoService [[0, 0]] 2 (by decide)
    demoForest_fitted rfl rfl
  have hlen : 0 < (get_predictions demoService [[0, 0]] 2).length := by
    rw [get_predictions_length]
    decide
  exact (h.2 _ (getD_zero_mem _ _ hlen)).1

/-- Claim C9: each result row of get_predictions lists its pairs in
non-increasing confidence order, and every pair is the label and the
predicted probability of one class index of that probability row. -/
theorem c9_get_predictions_sorted (s : PredictionService) (X : List (List ℚ))
    (top_k : Nat) (hf : Fitted s.classifier.model) (i : Nat)
    (hi : i < X.length) :
    List.Pairwise (fun a b => b.2 ≤ a.2) ((get_predictions s X top_k).getD i [])
    ∧ ∀ pr ∈ (get_predictions s X top_k).getD i [],
        ∃ idx, idx < (s.classifier.model.probaRow (X.getD i [])).length
          ∧ pr = (s.classifier.labels.getD idx "",
              (s.classifier.model.probaRow (X.getD i [])).getD idx 0) := by
  have hrow : (get_predictions s X top_k).getD i []
      = predRow s.classifier.labels
          (s.classifier.model.probaRow (X.getD i [])) top_k := by
    unfold get_predictions ImageClassifier.predict_proba RandomForest.predictProba
    rw [List.map_map, List.getD_eq_getElem _ _ (by simpa using hi),
      List.getElem_map, List.getD_eq_getElem _ _ hi]
    rfl
  rw [hrow]
  exact ⟨predRow_pairwise _ _ _, predRow_mem _ _ _⟩

/-- Witness for C9 on the demo service at row 0. -/
theorem c9_witness :
    Fitted demoService.classifier.model
    ∧ List.Pairwise (fun a b : String × ℚ => b.2 ≤ a.2)
        ((get_predictions demoService [[0, 0]] 3).getD 0 []) := by
  exact ⟨demoForest_fitted,
    (c9_get_predictions_sorted demoService [[0, 0]] 3 demoForest_fitted 0
      (by decide)).1⟩

/-- Claim C5: a model whose fit raises is caught and skipped and the loop
result is exactly the concatenation of the results on the surrounding
models; every model whose own fit succeeds appears in the results
whatever happens to the others; and the per-dataset loop of the mains
obeys the same skip law for a failing dataset. -/
theorem c5_failures_caught_and_skipped (pre post : List String) (m : String)
    (fit : String → Except String ℚ) (ds : String) (e : String)
    (hm : fit m = Except.error e)
    (dpre dpost : List String) (d : String) (proc : String → Bool)
    (hd : proc d = false) :
    train_models (pre ++ m :: post) fit ds
      = train_models pre fit ds ++ train_models post fit ds
    ∧ (∀ m2 s, m2 ∈ pre ++ m :: post → fit m2 = Except.ok s →
        ({ name := m2, score := s, path := modelPath m2 ds } : TrainedEntry)
          ∈ train_models (pre ++ m :: post) fit ds)
    ∧ pipelineSuccesses (dpre ++ d :: dpost) proc
      = pipelineSuccesses dpre proc ++ pipelineSuccesses dpost proc
    ∧ (∀ d2, d2 ∈ dpre ++ d :: dpost → proc d2 = true →
        d2 ∈ pipelineSuccesses (dpre ++ d :: dpost) proc) := by
  refine ⟨?_, ?_, ?_, ?_⟩
  · rw [train_models_eq, train_models_eq, train_models_eq,
      List.filterMap_append, List.filterMap_cons]
    simp [trainStep, hm]
  · intro m2 s hmem hok
    rw [train_models_eq, List.mem_filterMap]
    exact ⟨m2, hmem, by simp [trainStep, hok]⟩
  · rw [pipelineSuccesses_eq, pipelineSuccesses_eq, pipelineSuccesses_eq,
      List.filter_append, List.filter_cons]
    simp [hd]
  · intro d2 hmem htrue
    rw [pipelineSuccesses_eq]
    exact List.mem_filter.2 ⟨hmem, htrue⟩

/-- Concrete fit oracle that raises only on svc. -/
def demoFit : String → Except String ℚ :=
  fun model_name => if model_name = "svc" then Except.error "boom"
    else Except.ok 1

/-- Concrete per-dataset outcome that fails only on iris. -/
def demoProc : String → Bool :=
  fun dataset_name => dataset_name ≠ "iris"

/-- Witness for C5 on concrete model and dataset lists with one failure
in the middle of each. -/
theorem c5_witness :
    demoFit "svc" = Except.error "boom"
    ∧ demoProc "iris" = false
    ∧ train_models (["random_forest"] ++ "svc" :: ["xgboost"]) demoFit "wine"
      = train_models ["random_forest"] demoFit "wine"
        ++ train_models ["xgboost"] demoFit "wine" := by
  refine ⟨rfl, by decide, ?_⟩
  exact (c5_failures_caught_and_skipped ["random_forest"] ["xgboost"] "svc"
    demoFit "wine" "boom" rfl ["california_housing"] ["wine"] "iris"
    demoProc (by decide)).1

/-- Claim C6: load_processed_data returns the processed CSV when it
exists, falls back to the raw CSV when only that exists, and raises
FileNotFoundError exactly when neither exists; load_raw_data raises
exactly when the raw CSV is missing; and a dataset whose files are all
missing is merely skipped while the per-dataset loop handles the
surrounding datasets unchanged. -/
theorem c6_missing_files (fs : String → Bool) (name : String)
    (rest : String → Bool) (dpre dpost : List String) :
    (fs (processedPath name) = true →
        load_processed_data fs name = Except.ok (processedPath name))
    ∧ (fs (processedPath name) = false → fs (rawPath name) = true →
        load_processed_data fs name = Except.ok (rawPath name))
    ∧ ((load_processed_data fs name).isOk = false
        ↔ fs (processedPath name) = false ∧ fs (rawPath name) = false)
    ∧ ((load_raw_data fs name).isOk = false ↔ fs (rawPath name) = false)
    ∧ (fs (processedPath name) = false → fs (rawPath name) = false →
        train_dataset fs rest name = false
        ∧ pipelineSuccesses (dpre ++ name :: dpost) (train_dataset fs rest)
            = pipelineSuccesses dpre (train_dataset fs rest)
              ++ pipelineSuccesses dpost (train_dataset fs rest)) := by
  have hskip : fs (processedPath name) = false → fs (rawPath name) = false →
      pipelineSuccesses (dpre ++ name :: dpost) (train_dataset fs rest)
        = pipelineSuccesses dpre (train_dataset fs rest)
          ++ pipelineSuccesses dpost (train_dataset fs rest) := by
    intro hp hr
    rw [pipelineSuccesses_eq, pipelineSuccesses_eq, pipelineSuccesses_eq,
      List.filter_append, List.filter_cons]
    simp [train_dataset, load_processed_data, hp, hr]
  cases hp : fs (processedPath name) <;> cases hr : fs (rawPath name) <;>
    simp [load_processed_data, load_raw_data, train_dataset, hp, hr,
      Except.isOk, Except.toBool, hskip]

/-- Concrete oracle in which every file exists. -/
def demoFsAll : String → Bool :=
  fun _ => true

/-- Concrete oracle in which no file exists. -/
def demoFsNone : String → Bool :=
  fun _ => false

/-- Witness for C6 at concrete oracles: failure path when no file exists
and success path when the processed CSV exists. -/
theorem c6_witness :
    demoFsNone (processedPath "iris") = false
    ∧ (load_processed_data demoFsNone "iris").isOk = false
    ∧ train_dataset demoFsNone (fun _ => true) "iris" = false
    ∧ load_processed_data demoFsAll "iris" = Except.ok (processedPath "iris") := by
  have h := c6_missing_files demoFsNone "iris" (fun _ => true) [] []
  have h2 := c6_missing_files demoFsAll "iris" (fun _ => true) [] []
  exact ⟨rfl, h.2.2.1.mpr ⟨rfl, rfl⟩, (h.2.2.2.2 rfl rfl).1, h2.1 rfl⟩

/-- Claim C8: each successfully trained model is recorded as saved at the
path keyed by its model name and the dataset name; every such path lies
under the fixed data/models directory and carries the .joblib extension;
and over the model-name/dataset universe of the pipeline these paths are
pairwise distinct. -/
theorem c8_model_paths (names : List String) (fit : String → Except String ℚ)
    (ds : String) :
    (∀ entry ∈ train_models names fit ds,
        entry.path = modelPath entry.name ds
        ∧ ("data/models/" : String).data <+: (modelPath entry.name ds).data
        ∧ (".joblib" : String).data <:+ (modelPath entry.name ds).data)
    ∧ allModelDatasetPairs.Nodup
    ∧ (allModelDatasetPairs.map (fun p => modelPath p.1 p.2)).Nodup := by
  refine ⟨?_, by decide, by decide⟩
  intro entry hentry
  rw [train_models_eq, List.mem_filterMap] at hentry
  obtain ⟨m, hm, hstep⟩ := hentry
  unfold trainStep at hstep
  cases hfit : fit m with
  | error e =>
    rw [hfit] at hstep
    simp at hstep
  | ok s =>
    rw [hfit] at hstep
    obtain rfl := Option.some_injective _ hstep
    refine ⟨rfl, ?_, ?_⟩
    · refine ⟨(m ++ "_" ++ ds ++ "_model.joblib").data, ?_⟩
      simp [modelPath, String.data_append]
    · refine ⟨("data/models/" ++ m ++ "_" ++ ds ++ "_model").data, ?_⟩
      have hsplit : ("_model.joblib" : String).data
          = ("_model" : String).data ++ (".joblib" : String).data := by
        decide
      simp [modelPath, String.data_append, hsplit]

/-- Result entry of training random_forest on iris with a constant fit
oracle, used as the C8 witness input. -/
def demoEntry : TrainedEntry :=
  { name := "random_forest", score := 1
    path := modelPath "random_forest" "iris" }

/-- Witness for C8: the entry trained from random_forest on iris is in
the results and its path sits under data/models. -/
theorem c8_witness :
    demoEntry ∈ train_models ["random_forest"] (fun _ => Except.ok 1) "iris"
    ∧ ("data/models/" : String).data
        <+: (modelPath "random_forest" "iris").data := by
  have hmem : demoEntry
      ∈ train_models ["random_forest"] (fun _ => Except.ok 1) "iris" := by
    rw [train_models_eq, List.mem_filterMap]
    refine ⟨"random_forest", by decide, rfl⟩
  have h := c8_model_paths ["random_forest"] (fun _ => Except.ok 1) "iris"
  exact ⟨hmem, (h.1 _ hmem).2.1⟩

/-- Claim C1 (amended): the mains of train_model.py,
feature_engineering.py and evaluate_model.py exit 0 exactly when at least
one dataset succeeded and 1 exactly when none did; data_prep.py main
always exits 0 whatever the download outcomes; analyze.py main exits 0
exactly when the single backend fetch-and-analysis succeeded. -/
theorem c1_exit_codes (proc : String → Bool) (outcome : String → Bool)
    (resp : Except String (List (String × JValue))) (now : ℚ)
    (rnd : Nat → ℚ) :
    (trainModelMain proc = 0 ↔ 0 < datasets.countP proc)
    ∧ (trainModelMain proc = 1 ↔ datasets.countP proc = 0)
    ∧ (featureEngineeringMain proc = 0 ↔ 0 < datasets.countP proc)
    ∧ (evaluateModelMain proc = 0 ↔ 0 < datasets.countP proc)
    ∧ dataPrepMain outcome = 0
    ∧ (analyzeMain resp now rnd = 0
        ↔ (fetch_and_analyze_metrics resp now rnd).success = true) := by
  have hcount := foldl_count_eq proc datasets 0
  refine ⟨?_, ?_, ?_, ?_, rfl, ?_⟩
  · unfold trainModelMain
    rw [hcount]
    dsimp only
    split_ifs with h <;> simp_all
  · unfold trainModelMain
    rw [hcount]
    dsimp only
    split_ifs with h <;> simp_all
  · unfold featureEngineeringMain
    rw [hcount]
    dsimp only
    split_ifs with h <;> simp_all
  · unfold evaluateModelMain
    rw [hcount]
    dsimp only
    split_ifs with h <;> simp_all
  · unfold analyzeMain
    cases h : (fetch_and_analyze_metrics resp now rnd).success <;> simp [h]

/-- Counterexample to C1 as stated: with every download failing,
data_prep.py main still exits 0 although zero datasets succeeded. -/
theorem c1_counterexample :
    dataPrepMain (fun _ => false) = 0
    ∧ dataPrepSuccessCount (fun _ => false) = 0 := by
  exact ⟨rfl, by decide⟩

theorem jlookup_append_self (l : List (String × JValue)) (k : String)
    (v : JValue) (h : jlookup l k = none) :
    jlookup (l ++ [(k, v)]) k = some v := by
  unfold jlookup at h ⊢
  rw [Option.map_eq_none'] at h
  rw [List.find?_append, h]
  simp

theorem jlookup_append_other (l : List (String × JValue)) (k k2 : String)
    (v : JValue) (hk : (k == k2) = false) :
    jlookup (l ++ [(k, v)]) k2 = jlookup l k2 := by
  unfold jlookup
  rw [List.find?_append]
  have hnone : List.find? (fun p => p.1 == k2) [(k, v)] = none := by
    simp [List.find?, hk]
  rw [hnone, Option.or_none]

theorem analyze_congr (d1 d2 : List (String × JValue)) (now : ℚ)
    (rnd : Nat → ℚ)
    (hdata : (jlookup d1 "data").getD (JValue.obj [])
      = (jlookup d2 "data").getD (JValue.obj []))
    (hts : (jlookup d1 "timestamp").getD (JValue.num now)
      = (jlookup d2 "timestamp").getD (JValue.num now)) :
    analyze_api_response d1 now rnd = analyze_api_response d2 now rnd := by
  unfold analyze_api_response
  rw [hdata, hts]

/-- Claim C7 (amended): analyze_api_response succeeds on every JSON
object whose data field, when present, has a Python length and whose
timestamp field, when present, is numeric; an absent data field behaves
exactly as an explicit empty object, an absent timestamp exactly as the
current time, and an absent language field is reported as the string
unknown by fetch_and_analyze_metrics. -/
theorem c7_optional_fields (resp : List (String × JValue)) (now : ℚ)
    (rnd : Nat → ℚ)
    (hd : ∀ v, jlookup resp "data" = some v → (pyLen v).isOk = true)
    (ht : ∀ v, jlookup resp "timestamp" = some v → (pyNum v).isOk = true) :
    (analyze_api_response resp now rnd).isOk = true
    ∧ (jlookup resp "data" = none →
        analyze_api_response resp now rnd
          = analyze_api_response (resp ++ [("data", JValue.obj [])]) now rnd)
    ∧ (jlookup resp "timestamp" = none →
        analyze_api_response resp now rnd
          = analyze_api_response (resp ++ [("timestamp", JValue.num now)])
              now rnd)
    ∧ (jlookup resp "language" = none →
        (fetch_and_analyze_metrics (Except.ok resp) now rnd).backend_language
          = some (JValue.str "unknown")) := by
  have hdata : (pyLen ((jlookup resp "data").getD (JValue.obj []))).isOk
      = true := by
    cases hvd : jlookup resp "data" with
    | none => rfl
    | some v => exact hd v hvd
  have hts : (pyNum ((jlookup resp "timestamp").getD (JValue.num now))).isOk
      = true := by
    cases hvt : jlookup resp "timestamp" with
    | none => rfl
    | some v => exact ht v hvt
  obtain ⟨n, hn⟩ := isOk_exists _ hdata
  obtain ⟨ts, hts2⟩ := isOk_exists _ hts
  have hok : (analyze_api_response resp now rnd).isOk = true := by
    unfold analyze_api_response
    dsimp only
    rw [hn, hts2]
    rfl
  refine ⟨hok, ?_, ?_, ?_⟩
  · intro h
    refine analyze_congr _ _ now rnd ?_ ?_
    · rw [h, jlookup_append_self _ _ _ h]
      rfl
    · rw [jlookup_append_other _ _ _ _ (by decide)]
  · intro h
    refine analyze_congr _ _ now rnd ?_ ?_
    · rw [jlookup_append_other _ _ _ _ (by decide)]
    · rw [h, jlookup_append_self _ _ _ h]
      rfl
  · intro h
    obtain ⟨a, ha⟩ := isOk_exists _ hok
    unfold fetch_and_analyze_metrics
    dsimp only
    rw [ha]
    dsimp only
    rw [h]
    rfl

/-- Counterexample to C7 as stated: a JSON object whose data field is the
number 5 makes analyze_api_response raise TypeError from len(). -/
theorem c7_counterexample :
    (analyze_api_response [("data", JValue.num 5)] 0 (fun _ => 0)).isOk
      = false := by
  rfl

/-- Witness for C7 at a concrete response carrying only a numeric
timestamp field. -/
theorem c7_witness :
    (analyze_api_response [("timestamp", JValue.num 5)] 0 (fun _ => 0)).isOk
      = true := by
  refine (c7_optional_fields [("timestamp", JValue.num 5)] 0 (fun _ => 0)
    ?_ ?_).1
  · intro v hv
    simp [jlookup] at hv
  · intro v hv
    simp [jlookup] at hv
    rw [← hv]
    rfl
